import Mathlib

/-!
Verification development for the Website-Spider repository.

The repository has three source files, each a full engine binding:
  * `selenium-use.py`   — `MultitabWebSpider.crawl_urls` (single-session tab
    pool driven by a polling loop), `_get_status_code`, `_get_page_content`,
    `_fetch_single_url_with_fresh_driver` and the process-pool entry point
    `get_html_sources`;
  * `playwright-use.py` — `_get_single_html_source` (strategy/retry engine
    around `_get_html_with_browser`), `_get_status_code_from_response` and the
    thread-pool entry point `_batch_get_html_sources`;
  * `patchright-use.py` — same shape as the playwright binding with a
    `finally`-based cleanup and a two-strategy list.

The browser itself is an external collaborator; every interaction with it
(navigation outcome, readiness, page content, raised exceptions, timing of the
polling passes) is an explicit oracle argument, so each Python function
becomes a pure Lean function of its oracle.  Machine time is modelled in
milliseconds as `Nat`; one polling pass of `crawl_urls` inspects all tabs at a
single sampled clock value.
-/

namespace Spider

/-! ## Small generic helpers -/

/-- Characters removed by Python's `str.strip()` (ASCII whitespace). -/
def isStripChar (c : Char) : Bool :=
  c = ' ' || c = '\t' || c = '\n' || c = '\r' || c = '\x0b' || c = '\x0c'

/-- List-level model of Python `str.strip()`. -/
def stripChars (l : List Char) : List Char :=
  ((l.dropWhile isStripChar).reverse.dropWhile isStripChar).reverse

/-- `len(s.strip())` of a Python string. -/
def strippedLen (s : String) : Nat :=
  (stripChars s.data).length

/-- Lookup in an association list keyed by `Nat` (model of a Python dict whose
keys are result indices; every index is written at most once, so the first
match is the recorded value). -/
def lookupRec {α : Type} (i : Nat) : List (Nat × α) → Option α
  | [] => none
  | (j, r) :: rest => if j = i then some r else lookupRec i rest

theorem lookupRec_mem {α : Type} {i : Nat} {l : List (Nat × α)} {r : α}
    (h : lookupRec i l = some r) : (i, r) ∈ l := by
  induction l with
  | nil => simp [lookupRec] at h
  | cons p rest ih =>
    obtain ⟨j, a⟩ := p
    by_cases hj : j = i
    · subst hj
      simp [lookupRec] at h
      subst h
      exact List.mem_cons_self _ _
    · simp [lookupRec, hj] at h
      exact List.mem_cons_of_mem _ (ih h)

/-- Model of a fallible list comprehension `[f(i) for i in l]` where `f` may
raise (Python `KeyError`): the whole comprehension fails if any element does. -/
def mapOpt {α β : Type} (f : α → Option β) : List α → Option (List β)
  | [] => some []
  | a :: rest =>
    match f a, mapOpt f rest with
    | some b, some bs => some (b :: bs)
    | _, _ => none

theorem mapOpt_eq_map_of_forall {α β : Type} (f : α → Option β) (g : α → β)
    (l : List α) (h : ∀ a ∈ l, f a = some (g a)) :
    mapOpt f l = some (l.map g) := by
  induction l with
  | nil => rfl
  | cons a rest ih =>
    have ha := h a (List.mem_cons_self _ _)
    have hrest := ih (fun b hb => h b (List.mem_cons_of_mem _ hb))
    simp [mapOpt, ha, hrest]

theorem getD_set_self {α : Type} (l : List α) (i : Nat) (a d : α)
    (h : i < l.length) : (l.set i a).getD i d = a := by
  induction l generalizing i with
  | nil => simp at h
  | cons b rest ih =>
    cases i with
    | zero => rfl
    | succ n => exact ih n (by simpa using h)

theorem getD_set_ne {α : Type} (l : List α) (i j : Nat) (a d : α)
    (h : j ≠ i) : (l.set j a).getD i d = l.getD i d := by
  induction l generalizing i j with
  | nil => rfl
  | cons b rest ih =>
    cases j with
    | zero =>
      cases i with
      | zero => exact absurd rfl h
      | succ n => rfl
    | succ m =>
      cases i with
      | zero => rfl
      | succ n =>
        simp only [List.set, List.getD, List.get?]
        exact ih n m (fun hc => h (by rw [hc]))

/-! ## Result records of the selenium binding

The dictionaries built by `selenium-use.py` do not all carry the same keys:
the seeding-failure, tab-check-failure and hard-timeout records have no
`status_code` key, the others do.  Optional keys are modelled with `Option`. -/

structure Rec where
  url : String
  source_code : String
  status : String
  status_code : Option Nat
  error : Option String
  content_length : Nat
deriving DecidableEq, Repr

/-- Record written by `crawl_urls` when the initial `window.open` raises
(selenium-use.py lines 386-392; no `status_code` key). -/
def seedFailRec (u e : String) : Rec :=
  { url := u, source_code := "", status := "failed", status_code := none,
    error := some e, content_length := 0 }

/-- Record written when switching to / probing a tab raises
(selenium-use.py lines 427-433; no `status_code` key). -/
def checkFailRec (u e : String) : Rec :=
  { url := u, source_code := "", status := "failed", status_code := none,
    error := some e, content_length := 0 }

/-- Record written on the hard-kill path (selenium-use.py lines 463-469;
no `status_code` key, error text `timeout>Ns`). -/
def hardKillRec (u : String) (hk : Nat) : Rec :=
  { url := u, source_code := "", status := "failed", status_code := none,
    error := some ("timeout>" ++ toString hk ++ "s"), content_length := 0 }

/-- Record written when the snapshot (`page_source` / `_get_status_code`)
raises (selenium-use.py lines 508-515). -/
def snapFailRec (u e : String) : Rec :=
  { url := u, source_code := "", status := "failed", status_code := some 0,
    error := some e, content_length := 0 }

/-- Successful snapshot record (selenium-use.py lines 499-505). -/
def successRec (u src : String) (code : Nat) : Rec :=
  { url := u, source_code := src, status := "success", status_code := some code,
    error := none, content_length := src.length }

/-- Defensive filler for an index with no recorded result
(selenium-use.py lines 546-553). -/
def noResultRec (u : String) : Rec :=
  { url := u, source_code := "", status := "failed", status_code := some 0,
    error := some "No result", content_length := 0 }

/-! ## The tab-pool scheduler `MultitabWebSpider.crawl_urls` -/

/-- One in-flight tab: `active_tabs[handle] = {idx, url, start, bypassed}`. -/
structure Tab where
  idx : Nat
  url : String
  start : Nat
  bypassed : Bool
deriving DecidableEq, Repr

/-- Browser-side behaviour of one `crawl_urls` run.  Every driver interaction
is a function of the url index and the sampled clock (milliseconds). -/
structure SelOracle where
  /-- `window.open` raises for this url index (seed and refill sites). -/
  openFails : Nat → Option String
  /-- switching to the tab / probing it raises at this instant. -/
  checkRaises : Nat → Nat → Option String
  /-- `has_body or readyState in (interactive, complete)` at this instant. -/
  readyAt : Nat → Nat → Bool
  /-- `page_source` at this instant; `.error` models a raised exception. -/
  snapshotAt : Nat → Nat → Except String String
  /-- value returned by `self._get_status_code(u)` at this instant. -/
  statusAt : Nat → Nat → Nat
  /-- extra wall-clock milliseconds consumed by pass `k` beyond the 200 ms
  poll sleep (blocking driver calls). -/
  passDelay : Nat → Nat

/-- Hard-kill threshold `max(self.timeout * 2, self.timeout + 5)` in seconds. -/
def hardKillSec (timeout : Nat) : Nat := max (timeout * 2) (timeout + 5)

/-- Seeding loop (selenium-use.py lines 372-392): keep drawing from the url
iterator until `created` reaches `target` or the iterator is exhausted; a
failing `window.open` records a failure and does not count as created.
Returns the opened tabs, the records written, and the remaining iterator. -/
def seedTabs (o : SelOracle) (target : Nat) :
    Nat → List (Nat × String) → List Tab × List (Nat × Rec) × List (Nat × String)
  | _, [] => ([], [], [])
  | created, (i, u) :: rest =>
    if created < target then
      match o.openFails i with
      | some e =>
        let out := seedTabs o target created rest
        (out.1, (i, seedFailRec u e) :: out.2.1, out.2.2)
      | none =>
        let out := seedTabs o target (created + 1) rest
        (⟨i, u, 0, false⟩ :: out.1, out.2.1, out.2.2)
    else ([], [], (i, u) :: rest)

/-- Refill after closing a tab (the `next(url_iter)` / `window.open` blocks):
on `StopIteration` nothing happens; if `window.open` raises, the drawn index
is consumed but neither recorded nor assigned a tab. -/
def refill (o : SelOracle) (now : Nat) :
    List (Nat × String) → Option Tab × List (Nat × String)
  | [] => (none, [])
  | (i, u) :: rest =>
    match o.openFails i with
    | some _ => (none, rest)
    | none => (some ⟨i, u, now, false⟩, rest)

/-- Accumulator of one polling pass over `list(active_tabs.keys())`:
surviving tabs, tabs opened by refills during the pass (a Python dict appends
new keys after all surviving ones), the url iterator and the results dict. -/
structure PassAcc where
  keep : List Tab
  app : List Tab
  pending : List (Nat × String)
  results : List (Nat × Rec)

/-- Inspection of one tab inside the polling loop
(selenium-use.py lines 398-532), at sampled clock `now`:
exception during switch/probe → failure record and refill; otherwise hard
deadline → failure without snapshot and refill; otherwise readiness or soft
deadline → snapshot (success, or failure if `page_source` raises) and refill;
otherwise the tab survives (with its bypass probe now marked attempted). -/
def inspectTab (o : SelOracle) (timeout now : Nat) (acc : PassAcc) (t : Tab) :
    PassAcc :=
  let elapsed := now - t.start
  match o.checkRaises t.idx now with
  | some e =>
    let (nt, p') := refill o now acc.pending
    { acc with
        pending := p'
        results := (t.idx, checkFailRec t.url e) :: acc.results
        app := acc.app ++ nt.toList }
  | none =>
    if 1000 * hardKillSec timeout ≤ elapsed then
      let (nt, p') := refill o now acc.pending
      { acc with
          pending := p'
          results := (t.idx, hardKillRec t.url (hardKillSec timeout)) :: acc.results
          app := acc.app ++ nt.toList }
    else if o.readyAt t.idx now || 1000 * timeout ≤ elapsed then
      let r : Rec :=
        match o.snapshotAt t.idx now with
        | .ok src => successRec t.url src (o.statusAt t.idx now)
        | .error e => snapFailRec t.url e
      let (nt, p') := refill o now acc.pending
      { acc with
          pending := p'
          results := (t.idx, r) :: acc.results
          app := acc.app ++ nt.toList }
    else
      let t' : Tab := { t with bypassed := true }
      { acc with keep := acc.keep ++ [t'] }

/-- State of the polling loop between passes. -/
structure CrawlState where
  tabs : List Tab
  pending : List (Nat × String)
  results : List (Nat × Rec)
  now : Nat
deriving Repr

/-- One full pass of the `while active_tabs:` loop body. -/
def runPass (o : SelOracle) (timeout : Nat) (st : CrawlState) : CrawlState :=
  let acc := st.tabs.foldl (inspectTab o timeout st.now)
    ⟨[], [], st.pending, st.results⟩
  { tabs := acc.keep ++ acc.app, pending := acc.pending,
    results := acc.results, now := st.now }

/-- The polling loop, fuelled by a pass budget.  After each pass the clock
advances by the 200 ms poll sleep plus the oracle's delay for that pass. -/
def runLoop (o : SelOracle) (timeout : Nat) :
    Nat → Nat → CrawlState → CrawlState
  | 0, _, st => st
  | fuel + 1, k, st =>
    if st.tabs.isEmpty then st
    else
      let st' := runPass o timeout st
      runLoop o timeout fuel (k + 1)
        { st' with now := st.now + 200 + o.passDelay k }

/-- Python `enumerate` starting at `k`. -/
def enumerate (k : Nat) : List String → List (Nat × String)
  | [] => []
  | u :: us => (k, u) :: enumerate (k + 1) us

/-- Seeding as performed by `crawl_urls`: `max_tabs = max(1, max_tabs)` and
the seed target is `min(max_tabs, total)`. -/
def seedOut (o : SelOracle) (urls : List String) (maxTabs : Int) :
    List Tab × List (Nat × Rec) × List (Nat × String) :=
  let mt : Nat := (max 1 maxTabs).toNat
  seedTabs o (min mt urls.length) 0 (enumerate 0 urls)

/-- Final loop state of `MultitabWebSpider.crawl_urls`. -/
def crawlState (o : SelOracle) (timeout : Nat) (urls : List String)
    (maxTabs : Int) (fuel : Nat) : CrawlState :=
  let (tabs, recs, pending) := seedOut o urls maxTabs
  runLoop o timeout fuel 0 ⟨tabs, pending, recs, 0⟩

/-- `MultitabWebSpider.crawl_urls`: early return on an empty list, then the
tab pool loop, then reassembly in input order with the `No result` filler. -/
def crawlUrls (o : SelOracle) (timeout : Nat) (urls : List String)
    (maxTabs : Int) (fuel : Nat) : List Rec :=
  if urls.isEmpty then []
  else
    let st := crawlState o timeout urls maxTabs fuel
    (List.range urls.length).map fun i =>
      match lookupRec i st.results with
      | some r => r
      | none => noResultRec (urls.getD i "")

/-! ## `MultitabWebSpider._get_status_code` (selenium-use.py lines 275-309) -/

/-- One parsed `performance` log message relevant to the scan. -/
structure LogEntry where
  method : String
  url : String
  status : Nat
deriving DecidableEq, Repr

/-- Driver state consulted by `_get_status_code`. -/
structure StatusOracle where
  /-- resulting value of the `is_alive` probe (defaults to `True` on errors). -/
  alive : Bool
  /-- `driver.get_log('performance')`; `.error` models a raised exception,
  and a `none` element is an entry whose JSON parse raised (skipped). -/
  log : Except String (List (Option LogEntry))
  /-- `find_elements(By.TAG_NAME, 'body')` nonempty together with
  `len(page_source)`; `none` models a raise inside the heuristic block. -/
  bodyProbe : Option (Bool × Nat)

/-- The `for entry in logs` scan: parse failures continue; a
`Network.responseReceived` entry for the target url with a nonzero status
returns that status; everything else continues. -/
def scanLog (target : String) : List (Option LogEntry) → Option Nat
  | [] => none
  | none :: rest => scanLog target rest
  | some e :: rest =>
    if e.method = "Network.responseReceived" && e.url = target && e.status ≠ 0
    then some e.status
    else scanLog target rest

/-- `MultitabWebSpider._get_status_code`: scan the performance log (skipped
when the service is not alive or `get_log` raises), then the heuristic
fallback `200 if body present and len(page_source) > 100 else 0`. -/
def getStatusCode (o : StatusOracle) (target : String) : Nat :=
  let fromLog : Option Nat :=
    if o.alive then
      match o.log with
      | .ok entries => scanLog target entries
      | .error _ => none
    else none
  match fromLog with
  | some s => s
  | none =>
    match o.bodyProbe with
    | some (hasBody, srcLen) => if hasBody && 100 < srcLen then 200 else 0
    | none => 0

/-! ## `_fetch_single_url_with_fresh_driver` and the process-pool entry point
`get_html_sources` (selenium-use.py lines 576-662) -/

/-- Behaviour of one worker run and of the future collection. -/
structure PoolOracle where
  /-- creating the fresh browser session raises (caught inside `_fetch...`). -/
  spawnErr : String → Option String
  /-- `_get_page_content` raises for this url. -/
  pageErr : String → Option String
  /-- `page_source` captured for this url. -/
  pageSource : String → String
  /-- status code resolved by `_get_status_code` for this url. -/
  pageStatus : String → Nat
  /-- `future.result()` raises for this url index (worker crash). -/
  futureErr : Nat → Option String

/-- `MultitabWebSpider._get_page_content` (lines 311-352): any exception gives
the failure dictionary, otherwise a success dictionary is built from the
captured source with no length check at all. -/
def getPageContent (o : PoolOracle) (url : String) : Rec :=
  match o.pageErr url with
  | some e =>
    { url := url, source_code := "", status := "failed", status_code := some 0,
      error := some e, content_length := 0 }
  | none => successRec url (o.pageSource url) (o.pageStatus url)

/-- `_fetch_single_url_with_fresh_driver` (lines 576-597): session creation
failures are converted into the same failure dictionary shape. -/
def fetchSingleUrlWithFreshDriver (o : PoolOracle) (url : String) : Rec :=
  match o.spawnErr url with
  | some e =>
    { url := url, source_code := "", status := "failed", status_code := some 0,
      error := some e, content_length := 0 }
  | none => getPageContent o url

/-- The record stored at index `i` of `results_by_index` by the
`as_completed` collection loop of `get_html_sources` (lines 638-651). -/
def poolOutcome (o : PoolOracle) (urls : List String) (i : Nat) : Rec :=
  let u := urls.getD i ""
  match o.futureErr i with
  | some e =>
    { url := u, source_code := "", status := "failed", status_code := some 0,
      error := some e, content_length := 0 }
  | none => fetchSingleUrlWithFreshDriver o u

/-- `results_by_index` after draining `as_completed` in completion order
`order` (a dict written once per future). -/
def poolResults (o : PoolOracle) (urls : List String) :
    List Nat → List (Nat × Rec)
  | [] => []
  | i :: rest => (i, poolOutcome o urls i) :: poolResults o urls rest

/-- `get_html_sources` on a url list: empty input short-circuits; otherwise
`[results_by_index[i] for i in range(len(url_list))]`, where a missing key
would raise `KeyError` (modelled by `none`). -/
def getHtmlSources (o : PoolOracle) (urls : List String)
    (order : List Nat) : Option (List Rec) :=
  if urls.isEmpty then some []
  else mapOpt (fun i => lookupRec i (poolResults o urls order))
    (List.range urls.length)

/-! ## Playwright binding: `_get_html_with_browser`,
`_try_with_different_strategies`, `_get_single_html_source`
(playwright-use.py lines 69-544)

A fetch attempt is identified by its strategy `(use_headless, is_mobile)` and
its `retry_count`.  Side effects relevant to the claims (temp profile
directory creation/removal, the per-attempt sleeps) are returned as an event
trace. -/

/-- Observable side effects of the engine. -/
inductive Ev where
  /-- entry into `_get_html_with_browser` for strategy `(hd, mb)`, retry `k`. -/
  | attempt (hd mb : Bool) (k : Nat)
  /-- `tempfile.mkdtemp` for that call. -/
  | mkdir (hd mb : Bool) (k : Nat)
  /-- `shutil.rmtree` of that call's temp directory. -/
  | rmdir (hd mb : Bool) (k : Nat)
  /-- a `time.sleep(n)` / stabilisation wait of `n` seconds. -/
  | sleepSec (n : Nat)
deriving DecidableEq, Repr

/-- Browser behaviour of one `_get_html_with_browser` call. -/
structure AttemptO where
  /-- an exception raised after `mkdtemp` but before the inner `try`
  (browser launch, context setup): it propagates to the strategy loop. -/
  launchErr : Option String
  /-- `page.goto(..., wait_until='domcontentloaded')` raised. -/
  gotoTimeout : Option String
  /-- `page.content()` read inside the goto-timeout handler. -/
  earlyRead : Except String String
  /-- an exception raised in the main body (caught by the outer handler). -/
  mainErr : Option String
  /-- whether `"Timeout" in str(e)` holds for `mainErr`. -/
  excTimeout : Bool
  /-- `page.content()` read inside the outer exception handler. -/
  excRead : Except String String
  /-- first `page.content()` read of the main body. -/
  html1 : String
  /-- re-read of `page.content()` after the extra 5 s wait. -/
  html2 : String
  /-- `_get_status_code_from_response(page, target_url)` at this call. -/
  status : Nat

/-- Oracle: the behaviour of attempt `k` under strategy `(hd, mb)`. -/
def AttemptOracle : Type := Bool → Bool → Nat → AttemptO

/-- `_get_html_with_browser` (playwright-use.py lines 80-456), with the
remaining retry budget `rem` as a structural argument; the call at
`retry_count = k` runs with `rem = 2 - k`, so the Python guard
`retry_count < 2` is exactly `rem > 0`.  The recursive retry calls return the
inner call's value without removing the current call's temp directory; the
cleanup (`shutil.rmtree`) happens only on the four explicit return paths. -/
def pwAttemptGo (att : AttemptOracle) (hd mb : Bool) :
    Nat → Nat → Except String (String × Nat) × List Ev
  | rem, k =>
    let a := att hd mb k
    let pre : List Ev := [.attempt hd mb k, .mkdir hd mb k]
    match a.launchErr with
    | some e => (.error e, pre)
    | none =>
      let earlyOut : Option (String × Nat) :=
        match a.gotoTimeout with
        | some _ =>
          match a.earlyRead with
          | .ok c => if 100 < strippedLen c then some (c, a.status) else none
          | .error _ => none
        | none => none
      match earlyOut with
      | some v => (.ok v, pre ++ [.rmdir hd mb k])
      | none =>
        let evs := pre ++ [.sleepSec (3 + k)]
        match a.mainErr with
        | some _ =>
          let excOut : Option (String × Nat) :=
            if a.excTimeout then
              match a.excRead with
              | .ok c => if 100 < strippedLen c then some (c, a.status) else none
              | .error _ => none
            else none
          match excOut with
          | some v => (.ok v, evs ++ [.rmdir hd mb k])
          | none =>
            match rem with
            | r + 1 =>
              let out := pwAttemptGo att hd mb r (k + 1)
              (out.1, evs ++ out.2)
            | 0 => (.ok ("", 0), evs ++ [.rmdir hd mb k])
        | none =>
          if strippedLen a.html1 < 100 then
            if strippedLen a.html2 < 100 then
              match rem with
              | r + 1 =>
                let out := pwAttemptGo att hd mb r (k + 1)
                (out.1, evs ++ [.sleepSec 5] ++ out.2)
              | 0 => (.ok (a.html2, a.status), evs ++ [.sleepSec 5, .rmdir hd mb k])
            else (.ok (a.html2, a.status), evs ++ [.sleepSec 5, .rmdir hd mb k])
          else (.ok (a.html1, a.status), evs ++ [.rmdir hd mb k])

/-- A top-level fetch attempt: `_get_html_with_browser(url, hd, mb)` with
`retry_count = 0` and the full retry budget of 2. -/
def pwAttempt (att : AttemptOracle) (hd mb : Bool) :
    Except String (String × Nat) × List Ev :=
  pwAttemptGo att hd mb 2 0

/-- Strategy order of `_try_with_different_strategies`
(playwright-use.py lines 458-527): headless desktop, headless mobile,
headful desktop, headful mobile when headless is preferred; otherwise only
the two headful strategies. -/
def pwStrategies (preferredHeadless : Bool) : List (Bool × Bool) :=
  if preferredHeadless then [(true, false), (true, true), (false, false), (false, true)]
  else [(false, false), (false, true)]

/-- Acceptance test applied to each strategy's outcome:
`if result and len(result.strip()) > 100` (a raised exception is caught and
counts as not accepted). -/
def accepted : Except String (String × Nat) → Bool
  | .ok (html, _) => html ≠ "" && 100 < strippedLen html
  | .error _ => false

/-- The strategy loop over an explicit strategy list: first accepted attempt
returns immediately, anything else falls through; exhausted → `("", 0)`. -/
def tryStrategiesOn (att : AttemptOracle) :
    List (Bool × Bool) → (String × Nat) × List Ev
  | [] => (("", 0), [])
  | (hd, mb) :: rest =>
    let cur := pwAttempt att hd mb
    match cur.1 with
    | .ok (html, sc) =>
      if html ≠ "" && 100 < strippedLen html then ((html, sc), cur.2)
      else
        let out := tryStrategiesOn att rest
        (out.1, cur.2 ++ out.2)
    | .error _ =>
      let out := tryStrategiesOn att rest
      (out.1, cur.2 ++ out.2)

/-- `_try_with_different_strategies(target_url, preferred_headless)`. -/
def tryWithDifferentStrategies (att : AttemptOracle)
    (preferredHeadless : Bool) : (String × Nat) × List Ev :=
  tryStrategiesOn att (pwStrategies preferredHeadless)

/-- `_get_single_html_source` for one url: runs the strategy engine and
returns `(source, status)`; when all strategies fail this is `("", 0)`, and
the function returns a value on every oracle (no exception escapes). -/
def getSingleHtmlSource (att : AttemptOracle) (preferredHeadless : Bool) :
    (String × Nat) × List Ev :=
  tryWithDifferentStrategies att preferredHeadless

/-- `_get_status_code_from_response` (playwright-use.py lines 16-34): the
oracle value is what `page.evaluate` returned (or the exception it raised);
a raise yields 200, a falsy (zero) value yields 200, otherwise the value. -/
def pwStatusFromResponse (evalRes : Except String Nat) : Nat :=
  match evalRes with
  | .error _ => 200
  | .ok s => if s = 0 then 200 else s

/-! ## Thread-pool batch entry point `_batch_get_html_sources`
(playwright-use.py lines 547-602) -/

/-- Batch record: `{'url', 'source_code'}` plus `'status_code'` only when
`return_status_code` is set. -/
structure BRec where
  url : String
  source_code : String
  status_code : Option Nat
deriving DecidableEq, Repr

/-- Oracle for one batch run: a per-url attempt oracle for the worker, and
per-index `future.result(timeout=...)` failures (timeout or escaped error). -/
structure BatchOracle where
  att : String → AttemptOracle
  futureErr : Nat → Option String

/-- The record stored at `results[index]` by the collection loop
(playwright-use.py lines 571-593). -/
def batchOutcome (o : BatchOracle) (urls : List String)
    (headless rsc : Bool) (i : Nat) : BRec :=
  let u := urls.getD i ""
  match o.futureErr i with
  | some _ => { url := u, source_code := "", status_code := if rsc then some 0 else none }
  | none =>
    let v := (getSingleHtmlSource (o.att u) headless).1
    { url := u, source_code := v.1, status_code := if rsc then some v.2 else none }

/-- `results = [None] * len(url_list)` followed by the `as_completed` loop in
completion order `order`. -/
def batchGetHtmlSources (o : BatchOracle) (urls : List String)
    (headless rsc : Bool) (order : List Nat) : List (Option BRec) :=
  order.foldl
    (fun res i => res.set i (some (batchOutcome o urls headless rsc i)))
    (List.replicate urls.length none)

/-! ## Patchright binding (patchright-use.py lines 238-471)

Same strategy/retry shape as the playwright binding, but cleanup runs in a
`finally` block (so it also runs after a retry recursion returns), the
strategy list varies only the headless flag, and there is no second content
read inside an attempt. -/

/-- Behaviour of one patchright `_get_html_with_browser` call. -/
structure PAttemptO where
  /-- `_create_persistent_context` raised after `mkdtemp`: the caller never
  sees `temp_dir`, so the `finally` block cannot remove it. -/
  createErr : Option String
  /-- an exception in the fetch body (navigation, waits, scroll, content). -/
  bodyErr : Option String
  /-- `page.content()` captured at the end of the body. -/
  content : String
  /-- status code resolved by the response listener / main response. -/
  status : Nat

/-- Oracle: behaviour of patchright attempt `k` under headless flag `hd`. -/
def PAttemptOracle : Type := Bool → Nat → PAttemptO

/-- Patchright `_get_html_with_browser` (lines 250-424) with the remaining
retry budget structural (`rem = 2 - retry_count`, guard `retry_count < 2`).
The `finally` block emits `rmdir` after the recursive call's events, once per
call whose context creation succeeded. -/
def prAttemptGo (att : PAttemptOracle) (hd : Bool) :
    Nat → Nat → Except String (String × Nat) × List Ev
  | rem, k =>
    let a := att hd k
    let pre : List Ev := [.attempt hd false k, .mkdir hd false k]
    match a.createErr with
    | some e => (.error e, pre)
    | none =>
      match a.bodyErr with
      | some _ =>
        match rem with
        | r + 1 =>
          let out := prAttemptGo att hd r (k + 1)
          (out.1, pre ++ out.2 ++ [.rmdir hd false k])
        | 0 => (.ok ("", 0), pre ++ [.rmdir hd false k])
      | none =>
        if strippedLen a.content < 100 then
          match rem with
          | r + 1 =>
            let out := prAttemptGo att hd r (k + 1)
            (out.1, pre ++ out.2 ++ [.rmdir hd false k])
          | 0 => (.ok (a.content, a.status), pre ++ [.rmdir hd false k])
        else (.ok (a.content, a.status), pre ++ [.rmdir hd false k])

/-- A top-level patchright fetch attempt (`retry_count = 0`). -/
def prAttempt (att : PAttemptOracle) (hd : Bool) :
    Except String (String × Nat) × List Ev :=
  prAttemptGo att hd 2 0

/-- Patchright `_try_with_different_strategies` strategy order
(lines 426-460): headless then headful when headless is preferred, else
headful only. -/
def prStrategies (preferredHeadless : Bool) : List Bool :=
  if preferredHeadless then [true, false] else [false]

/-- The patchright strategy loop (same acceptance test
`result and len(result.strip()) > 100`). -/
def prTryStrategiesOn (att : PAttemptOracle) :
    List Bool → (String × Nat) × List Ev
  | [] => (("", 0), [])
  | hd :: rest =>
    let cur := prAttempt att hd
    match cur.1 with
    | .ok (html, sc) =>
      if html ≠ "" && 100 < strippedLen html then ((html, sc), cur.2)
      else
        let out := prTryStrategiesOn att rest
        (out.1, cur.2 ++ out.2)
    | .error _ =>
      let out := prTryStrategiesOn att rest
      (out.1, cur.2 ++ out.2)

/-- Patchright `_get_single_html_source`: value-returning on every oracle;
all strategies exhausted gives `("", 0)`. -/
def prGetSingleHtmlSource (att : PAttemptOracle) (preferredHeadless : Bool) :
    (String × Nat) × List Ev :=
  prTryStrategiesOn att (prStrategies preferredHeadless)

/-! ## Invariants of the tab-pool scheduler

Every record, tab and pending entry carries the url of its own input index;
this is what makes the final input-order reassembly correct. -/

/-- Every recorded result carries the url at its own index. -/
def RecsOK (urls : List String) (l : List (Nat × Rec)) : Prop :=
  ∀ p ∈ l, (p : Nat × Rec).2.url = urls.getD p.1 ""

/-- Every in-flight tab carries the url at its own index. -/
def TabsOK (urls : List String) (ts : List Tab) : Prop :=
  ∀ t ∈ ts, (t : Tab).url = urls.getD t.idx ""

/-- Every pending iterator entry pairs an index with its url. -/
def PendOK (urls : List String) (ps : List (Nat × String)) : Prop :=
  ∀ p ∈ ps, (p : Nat × String).2 = urls.getD p.1 ""

/-- Loop-state invariant. -/
def StOK (urls : List String) (st : CrawlState) : Prop :=
  TabsOK urls st.tabs ∧ PendOK urls st.pending ∧ RecsOK urls st.results

/-- Pass-accumulator invariant. -/
def AccOK (urls : List String) (acc : PassAcc) : Prop :=
  TabsOK urls acc.keep ∧ TabsOK urls acc.app ∧
    PendOK urls acc.pending ∧ RecsOK urls acc.results

theorem refill_ok (urls : List String) (o : SelOracle) (now : Nat)
    {ps : List (Nat × String)} (h : PendOK urls ps) :
    (∀ t ∈ (refill o now ps).1.toList, (t : Tab).url = urls.getD t.idx "") ∧
      PendOK urls (refill o now ps).2 := by
  cases ps with
  | nil => exact ⟨by simp [refill], by intro p hp; simp [refill] at hp⟩
  | cons p rest =>
    obtain ⟨i, u⟩ := p
    have hu : u = urls.getD i "" := h (i, u) (List.mem_cons_self _ _)
    have hrest : PendOK urls rest := fun q hq => h q (List.mem_cons_of_mem _ hq)
    simp only [refill]
    cases o.openFails i with
    | some e => exact ⟨by simp, hrest⟩
    | none =>
      refine ⟨?_, hrest⟩
      intro t ht
      simp [Option.toList] at ht
      subst ht
      exact hu

theorem inspectTab_ok (urls : List String) (o : SelOracle) (timeout now : Nat)
    {acc : PassAcc} {t : Tab} (ht : t.url = urls.getD t.idx "")
    (h : AccOK urls acc) : AccOK urls (inspectTab o timeout now acc t) := by
  obtain ⟨hkeep, happ, hpend, hres⟩ := h
  have hr := refill_ok urls o now hpend
  unfold inspectTab
  cases hcr : o.checkRaises t.idx now with
  | some e =>
    refine ⟨hkeep, ?_, hr.2, ?_⟩
    · intro x hx
      rcases List.mem_append.mp hx with hx | hx
      · exact happ x hx
      · exact hr.1 x hx
    · intro p hp
      rcases List.mem_cons.mp hp with hp | hp
      · subst hp; exact ht
      · exact hres p hp
  | none =>
    by_cases hhard : 1000 * hardKillSec timeout ≤ now - t.start
    · simp only [if_pos hhard]
      refine ⟨hkeep, ?_, hr.2, ?_⟩
      · intro x hx
        rcases List.mem_append.mp hx with hx | hx
        · exact happ x hx
        · exact hr.1 x hx
      · intro p hp
        rcases List.mem_cons.mp hp with hp | hp
        · subst hp; exact ht
        · exact hres p hp
    · simp only [if_neg hhard]
      by_cases hsoft : (o.readyAt t.idx now || decide (1000 * timeout ≤ now - t.start)) = true
      · simp only [hsoft, if_pos]
        refine ⟨hkeep, ?_, hr.2, ?_⟩
        · intro x hx
          rcases List.mem_append.mp hx with hx | hx
          · exact happ x hx
          · exact hr.1 x hx
        · intro p hp
          rcases List.mem_cons.mp hp with hp | hp
          · subst hp
            cases hsnap : o.snapshotAt t.idx now with
            | ok src => simp [hsnap, successRec, ht]
            | error e => simp [hsnap, snapFailRec, ht]
          · exact hres p hp
      · simp only [hsoft]
        refine ⟨?_, happ, hpend, hres⟩
        intro x hx
        rcases List.mem_append.mp hx with hx | hx
        · exact hkeep x hx
        · simp at hx
          subst hx
          exact ht

theorem foldl_inspect_ok (urls : List String) (o : SelOracle) (timeout now : Nat)
    (ts : List Tab) (hts : TabsOK urls ts) :
    ∀ acc, AccOK urls acc → AccOK urls (ts.foldl (inspectTab o timeout now) acc) := by
  induction ts with
  | nil => intro acc h; exact h
  | cons t rest ih =>
    intro acc h
    have ht : t.url = urls.getD t.idx "" := hts t (List.mem_cons_self _ _)
    have hrest : TabsOK urls rest := fun x hx => hts x (List.mem_cons_of_mem _ hx)
    exact ih hrest _ (inspectTab_ok urls o timeout now ht h)

theorem runPass_ok (urls : List String) (o : SelOracle) (timeout : Nat)
    {st : CrawlState} (h : StOK urls st) : StOK urls (runPass o timeout st) := by
  obtain ⟨htabs, hpend, hres⟩ := h
  have hacc : AccOK urls ⟨[], [], st.pending, st.results⟩ := by
    refine ⟨?_, ?_, hpend, hres⟩ <;> intro x hx <;> simp at hx
  have := foldl_inspect_ok urls o timeout st.now st.tabs htabs _ hacc
  obtain ⟨hk, ha, hp, hr⟩ := this
  refine ⟨?_, hp, hr⟩
  intro x hx
  rcases List.mem_append.mp hx with hx | hx
  · exact hk x hx
  · exact ha x hx

theorem runLoop_ok (urls : List String) (o : SelOracle) (timeout : Nat) :
    ∀ (fuel k : Nat) (st : CrawlState), StOK urls st →
      StOK urls (runLoop o timeout fuel k st) := by
  intro fuel
  induction fuel with
  | zero => intro k st h; exact h
  | succ n ih =>
    intro k st h
    unfold runLoop
    by_cases he : st.tabs.isEmpty
    · simp [he, h]
    · simp only [he, if_neg, Bool.false_eq_true, not_false_eq_true]
      have h' := runPass_ok urls o timeout h
      exact ih (k + 1) _ ⟨h'.1, h'.2.1, h'.2.2⟩

theorem enumerate_mem : ∀ (us : List String) (k i : Nat) (u : String),
    (i, u) ∈ enumerate k us → k ≤ i ∧ us.getD (i - k) "" = u := by
  intro us
  induction us with
  | nil => intro k i u h; simp [enumerate] at h
  | cons v rest ih =>
    intro k i u h
    simp only [enumerate] at h
    rcases List.mem_cons.mp h with h | h
    · obtain ⟨h1, h2⟩ := Prod.mk.injEq .. ▸ h
      injection h with h1 h2
      subst h1; subst h2
      simp
    · obtain ⟨hk, hg⟩ := ih (k + 1) i u h
      refine ⟨by omega, ?_⟩
      have : i - k = (i - (k + 1)) + 1 := by omega
      rw [this]
      simpa using hg

theorem seedTabs_ok (urls : List String) (o : SelOracle) (target : Nat) :
    ∀ (pending : List (Nat × String)) (created : Nat), PendOK urls pending →
      TabsOK urls (seedTabs o target created pending).1 ∧
        RecsOK urls (seedTabs o target created pending).2.1 ∧
        PendOK urls (seedTabs o target created pending).2.2 := by
  intro pending
  induction pending with
  | nil =>
    intro created h
    refine ⟨?_, ?_, ?_⟩ <;> intro x hx <;> simp [seedTabs] at hx
  | cons p rest ih =>
    intro created h
    obtain ⟨i, u⟩ := p
    have hu : u = urls.getD i "" := h (i, u) (List.mem_cons_self _ _)
    have hrest : PendOK urls rest := fun q hq => h q (List.mem_cons_of_mem _ hq)
    simp only [seedTabs]
    by_cases hc : created < target
    · simp only [if_pos hc]
      cases hof : o.openFails i with
      | some e =>
        obtain ⟨h1, h2, h3⟩ := ih created hrest
        refine ⟨h1, ?_, h3⟩
        intro q hq
        rcases List.mem_cons.mp hq with hq | hq
        · subst hq; simp [seedFailRec, hu]
        · exact h2 q hq
      | none =>
        obtain ⟨h1, h2, h3⟩ := ih (created + 1) hrest
        refine ⟨?_, h2, h3⟩
        intro t htm
        rcases List.mem_cons.mp htm with htm | htm
        · subst htm; exact hu
        · exact h1 t htm
    · simp only [if_neg hc]
      exact ⟨by intro x hx; simp at hx, by intro x hx; simp at hx, h⟩

theorem crawlState_ok (o : SelOracle) (timeout : Nat) (urls : List String)
    (maxTabs : Int) (fuel : Nat) :
    StOK urls (crawlState o timeout urls maxTabs fuel) := by
  have hpend : PendOK urls (enumerate 0 urls) := by
    intro p hp
    obtain ⟨i, u⟩ := p
    have := enumerate_mem urls 0 i u hp
    simpa using this.2.symm
  have hseed := seedTabs_ok urls o (min ((max 1 maxTabs).toNat) urls.length)
    (enumerate 0 urls) 0 hpend
  unfold crawlState seedOut
  exact runLoop_ok urls o timeout fuel 0 _ ⟨hseed.1, hseed.2.2, hseed.2.1⟩

theorem getD_map_range {β : Type} (f : Nat → β) {n i : Nat} (d : β)
    (h : i < n) : ((List.range n).map f).getD i d = f i := by
  rw [List.getD_eq_getElem?_getD, List.getElem?_map, List.getElem?_range h]
  rfl

theorem lookup_poolResults (o : PoolOracle) (urls : List String) :
    ∀ (order : List Nat) (i : Nat), i ∈ order →
      lookupRec i (poolResults o urls order) = some (poolOutcome o urls i) := by
  intro order
  induction order with
  | nil => intro i h; simp at h
  | cons j rest ih =>
    intro i h
    simp only [poolResults, lookupRec]
    by_cases hij : j = i
    · subst hij; simp
    · simp only [if_neg hij]
      rcases List.mem_cons.mp h with h | h
      · exact absurd h.symm hij
      · exact ih i h

theorem poolOutcome_url (o : PoolOracle) (urls : List String) (i : Nat) :
    (poolOutcome o urls i).url = urls.getD i "" := by
  simp only [poolOutcome, fetchSingleUrlWithFreshDriver, getPageContent]
  cases o.futureErr i <;> cases o.spawnErr (urls.getD i "") <;>
    cases o.pageErr (urls.getD i "") <;> rfl

theorem batch_foldl_length (o : BatchOracle) (urls : List String)
    (headless rsc : Bool) :
    ∀ (order : List Nat) (l : List (Option BRec)),
      (order.foldl
        (fun res i => res.set i (some (batchOutcome o urls headless rsc i)))
        l).length = l.length := by
  intro order
  induction order with
  | nil => intro l; rfl
  | cons j rest ih => intro l; rw [List.foldl_cons, ih, List.length_set]

theorem batch_foldl_getD (o : BatchOracle) (urls : List String)
    (headless rsc : Bool) :
    ∀ (order : List Nat) (l : List (Option BRec)) (i : Nat), i < l.length →
      (order.foldl
        (fun res i => res.set i (some (batchOutcome o urls headless rsc i)))
        l).getD i none =
        if i ∈ order then some (batchOutcome o urls headless rsc i)
        else l.getD i none := by
  intro order
  induction order with
  | nil => intro l i h; simp
  | cons j rest ih =>
    intro l i h
    rw [List.foldl_cons, ih _ i (by rw [List.length_set]; exact h)]
    by_cases hr : i ∈ rest
    · simp [hr, List.mem_cons]
    · simp only [if_neg hr]
      by_cases hij : i = j
      · subst hij
        rw [getD_set_self _ _ _ _ h]
        simp [List.mem_cons]
      · rw [getD_set_ne _ _ _ _ _ (Ne.symm hij)]
        simp [List.mem_cons, hij, hr]

/-- C1.  Every batch entry point — the tab-pool scheduler `crawl_urls`, the
process-pool `get_html_sources` and the thread-pool `_batch_get_html_sources`
— returns one result slot per input url with slot `i` carrying `input[i]`'s
url, for every oracle and every completion order (a permutation of the future
set for the two pool schedulers); in `crawl_urls` an index with no recorded
result receives the explicit `No result` failure record. -/
theorem c1_ordered_complete_results :
    (∀ (o : SelOracle) (timeout : Nat) (urls : List String) (maxTabs : Int)
        (fuel : Nat),
      (crawlUrls o timeout urls maxTabs fuel).length = urls.length ∧
      ∀ i, i < urls.length →
        ((crawlUrls o timeout urls maxTabs fuel).getD i (noResultRec "")).url =
          urls.getD i "" ∧
        (lookupRec i (crawlState o timeout urls maxTabs fuel).results = none →
          (crawlUrls o timeout urls maxTabs fuel).getD i (noResultRec "") =
            noResultRec (urls.getD i ""))) ∧
    (∀ (o : PoolOracle) (urls : List String) (order : List Nat),
      order.Perm (List.range urls.length) →
      ∃ out, getHtmlSources o urls order = some out ∧
        out.length = urls.length ∧
        ∀ i, i < urls.length →
          (out.getD i (noResultRec "")).url = urls.getD i "") ∧
    (∀ (o : BatchOracle) (urls : List String) (headless rsc : Bool)
        (order : List Nat),
      (batchGetHtmlSources o urls headless rsc order).length = urls.length ∧
      (order.Perm (List.range urls.length) →
        ∀ i, i < urls.length →
          ∃ r, (batchGetHtmlSources o urls headless rsc order).getD i none =
              some r ∧ r.url = urls.getD i "")) := by
  refine ⟨?_, ?_, ?_⟩
  · intro o timeout urls maxTabs fuel
    by_cases he : urls.isEmpty
    · have hnil : urls = [] := List.isEmpty_iff.mp he
      subst hnil
      exact ⟨by simp [crawlUrls], by intro i hi; simp at hi⟩
    · constructor
      · simp [crawlUrls, he]
      · intro i hi
        have hres := (crawlState_ok o timeout urls maxTabs fuel).2.2
        have hget : (crawlUrls o timeout urls maxTabs fuel).getD i (noResultRec "") =
            (match lookupRec i (crawlState o timeout urls maxTabs fuel).results with
             | some r => r
             | none => noResultRec (urls.getD i "")) := by
          simp only [crawlUrls, he, Bool.false_eq_true, if_neg, not_false_eq_true]
          exact getD_map_range _ _ hi
        cases hl : lookupRec i (crawlState o timeout urls maxTabs fuel).results with
        | some r =>
          have hmem := lookupRec_mem hl
          have hurl := hres (i, r) hmem
          refine ⟨?_, ?_⟩
          · rw [hget, hl]
            exact hurl
          · intro hnone
            cases hnone
        | none =>
          refine ⟨?_, fun _ => ?_⟩ <;> rw [hget, hl]
          rfl
  · intro o urls order hperm
    refine ⟨(List.range urls.length).map (poolOutcome o urls), ?_, ?_, ?_⟩
    · unfold getHtmlSources
      have hmap := mapOpt_eq_map_of_forall
        (fun i => lookupRec i (poolResults o urls order))
        (poolOutcome o urls) (List.range urls.length) ?_
      · by_cases he : urls.isEmpty
        · have hnil : urls = [] := List.isEmpty_iff.mp he
          subst hnil
          simp
        · simp only [he, Bool.false_eq_true, if_neg, not_false_eq_true]
          exact hmap
      · intro i hi
        exact lookup_poolResults o urls order i (hperm.mem_iff.mpr hi)
    · simp
    · intro i hi
      rw [getD_map_range _ _ hi]
      exact poolOutcome_url o urls i
  · intro o urls headless rsc order
    constructor
    · unfold batchGetHtmlSources
      rw [batch_foldl_length, List.length_replicate]
    · intro hperm i hi
      refine ⟨batchOutcome o urls headless rsc i, ?_, ?_⟩
      · unfold batchGetHtmlSources
        rw [batch_foldl_getD o urls headless rsc order _ i
          (by rw [List.length_replicate]; exact hi)]
        simp [hperm.mem_iff.mpr (List.mem_range.mpr hi)]
      · unfold batchOutcome
        split
        · rfl
        · rfl

/-! ## Concrete oracles used for witnesses and counterexamples -/

/-- A string of `n` copies of `a`. -/
def cChars (n : Nat) : String := String.mk (List.replicate n 'a')

/-- Tabs become ready immediately and snapshot the two-character page `hi`. -/
def shortOracle : SelOracle :=
  { openFails := fun _ => none
    checkRaises := fun _ _ => none
    readyAt := fun _ _ => true
    snapshotAt := fun _ _ => .ok "hi"
    statusAt := fun _ _ => 200
    passDelay := fun _ => 0 }

/-- Scenario A oracle: urls 0 and 2 are ready at once, url 1 never becomes
ready; snapshots always succeed. -/
def softOracle3 : SelOracle :=
  { openFails := fun _ => none
    checkRaises := fun _ _ => none
    readyAt := fun i _ => i = 0 || i = 2
    snapshotAt := fun i _ => .ok ("SNAP" ++ toString i)
    statusAt := fun _ _ => 200
    passDelay := fun _ => 0 }

/-- Never-ready oracle whose first polling pass blocks for ten seconds, so
the next inspection happens beyond the hard-kill threshold. -/
def hardOracle3 : SelOracle :=
  { softOracle3 with
      readyAt := fun _ _ => false
      passDelay := fun k => if k = 0 then 10000 else 0 }

/-- Every initial `window.open` raises. -/
def allOpenFail : SelOracle :=
  { shortOracle with openFails := fun _ => some "window.open failed" }

/-- Process-pool oracle with no failures. -/
def benignPool : PoolOracle :=
  { spawnErr := fun _ => none
    pageErr := fun _ => none
    pageSource := fun u => "PAGE:" ++ u
    pageStatus := fun _ => 200
    futureErr := fun _ => none }

/-- A clean fetch attempt: no exceptions, the two content reads and the
resolved status code as given. -/
def simpleAttempt (h1 h2 : String) (st : Nat) : AttemptO :=
  { launchErr := none, gotoTimeout := none, earlyRead := .error "unused",
    mainErr := none, excTimeout := false, excRead := .error "unused",
    html1 := h1, html2 := h2, status := st }

/-- An attempt whose browser launch raises. -/
def failAttempt (e : String) : AttemptO :=
  { launchErr := some e, gotoTimeout := none, earlyRead := .error e,
    mainErr := none, excTimeout := false, excRead := .error e,
    html1 := "", html2 := "", status := 0 }

/-- Every strategy and retry returns a rich page. -/
def richAtt : AttemptOracle := fun _ _ _ => simpleAttempt (cChars 150) (cChars 150) 200

/-- Thread-pool batch oracle with rich workers and no future failures. -/
def benignBatch : BatchOracle :=
  { att := fun _ => richAtt
    futureErr := fun _ => none }

/-- Witness for C1: concrete two-url runs of both pool schedulers with
completion order reversed from input order. -/
theorem c1_witness :
    [1, 0].Perm (List.range 2) ∧
    ((getHtmlSources benignPool ["x", "y"] [1, 0]).getD []).length = 2 ∧
    (((getHtmlSources benignPool ["x", "y"] [1, 0]).getD []).getD 0
        (noResultRec "")).url = (["x", "y"] : List String).getD 0 "" ∧
    ((batchGetHtmlSources benignBatch ["x", "y"] true true [1, 0]).getD 0
        none).isSome = true := by
  have h := c1_ordered_complete_results
  obtain ⟨out, h1, h2, h3⟩ := h.2.1 benignPool ["x", "y"] [1, 0] (by decide)
  obtain ⟨r, hr1, hr2⟩ :=
    (h.2.2 benignBatch ["x", "y"] true true [1, 0]).2 (by decide) 0 (by decide)
  refine ⟨by decide, ?_, ?_, ?_⟩
  · rw [h1]; exact h2
  · rw [h1]; exact h3 0 (by decide)
  · rw [hr1]; rfl

/-- Counterexample for C2: in the tab-pool scheduler a ready tab whose page
source is only two characters long is still recorded with status `success`,
so success does not imply a 100-character minimum. -/
theorem c2_counterexample :
    ((crawlUrls shortOracle 30 ["http://s"] 5 3).getD 0 (noResultRec "")).status =
      "success" ∧
    ((crawlUrls shortOracle 30 ["http://s"] 5 3).getD 0 (noResultRec "")).content_length
      < 100 := by
  decide

theorem tryStrategiesOn_accepted_shape (att : AttemptOracle) :
    ∀ l, (tryStrategiesOn att l).1.1 ≠ "" →
      100 < strippedLen (tryStrategiesOn att l).1.1 := by
  intro l
  induction l with
  | nil => intro h; simp [tryStrategiesOn] at h
  | cons s rest ih =>
    obtain ⟨hd, mb⟩ := s
    intro h
    simp only [tryStrategiesOn] at h ⊢
    rcases hres : (pwAttempt att hd mb).1 with e | ⟨html, sc⟩
    · simp only [hres] at h ⊢
      exact ih h
    · simp only [hres] at h ⊢
      by_cases hacc : (decide (html ≠ "") && decide (100 < strippedLen html)) = true
      · rw [if_pos hacc] at h ⊢
        simp only [Bool.and_eq_true, decide_eq_true_eq] at hacc
        exact hacc.2
      · rw [if_neg hacc] at h ⊢
        exact ih h

theorem prTryStrategiesOn_accepted_shape (att : PAttemptOracle) :
    ∀ l, (prTryStrategiesOn att l).1.1 ≠ "" →
      100 < strippedLen (prTryStrategiesOn att l).1.1 := by
  intro l
  induction l with
  | nil => intro h; simp [prTryStrategiesOn] at h
  | cons hd rest ih =>
    intro h
    simp only [prTryStrategiesOn] at h ⊢
    rcases hres : (prAttempt att hd).1 with e | ⟨html, sc⟩
    · simp only [hres] at h ⊢
      exact ih h
    · simp only [hres] at h ⊢
      by_cases hacc : (decide (html ≠ "") && decide (100 < strippedLen html)) = true
      · rw [if_pos hacc] at h ⊢
        simp only [Bool.and_eq_true, decide_eq_true_eq] at hacc
        exact hacc.2
      · rw [if_neg hacc] at h ⊢
        exact ih h

/-- C2 amended: in the playwright and patchright engines a nonempty returned
html always has stripped length above 100 (the acceptance test is
`len(result.strip()) > 100`); the selenium tab-pool scheduler enforces no
such bound, as the counterexample shows. -/
theorem c2_success_length_invariant :
    (∀ (att : AttemptOracle) (ph : Bool),
      (getSingleHtmlSource att ph).1.1 ≠ "" →
        100 < strippedLen (getSingleHtmlSource att ph).1.1) ∧
    (∀ (att : PAttemptOracle) (ph : Bool),
      (prGetSingleHtmlSource att ph).1.1 ≠ "" →
        100 < strippedLen (prGetSingleHtmlSource att ph).1.1) :=
  ⟨fun att ph => tryStrategiesOn_accepted_shape att (pwStrategies ph),
   fun att ph => prTryStrategiesOn_accepted_shape att (prStrategies ph)⟩

set_option maxRecDepth 4000 in
/-- Witness for C2 (amended): a concrete engine run that returns nonempty
html indeed has stripped length above 100. -/
theorem c2_witness :
    (getSingleHtmlSource richAtt true).1.1 ≠ "" ∧
      100 < strippedLen (getSingleHtmlSource richAtt true).1.1 :=
  ⟨by decide, c2_success_length_invariant.1 richAtt true (by decide)⟩

/-- Counterexample for C3 (Scenario A): with three urls, two tabs and url 1
never becoming ready, url 1 is not abandoned with a hard-deadline failure
record — it is snapshotted at the soft deadline and recorded as a success. -/
theorem c3_counterexample :
    ((crawlUrls softOracle3 1 ["u0", "u1", "u2"] 2 10).getD 1 (noResultRec "")).status =
      "success" ∧
    ((crawlUrls softOracle3 1 ["u0", "u1", "u2"] 2 10).getD 1 (noResultRec "")).source_code =
      "SNAP1" := by
  decide

/-- C3 amended: a tab whose readiness never fires is snapshotted at the soft
deadline (`timeout` seconds) and recorded as a success record, with the loop
finishing well inside the hard bound `max(2*timeout, timeout+5)`; the hard
deadline produces a snapshot-free failure record (error `timeout>Ns`) only
when a polling pass first observes the tab beyond that threshold, as after a
blocking ten-second pass. -/
theorem c3_deadline_behavior :
    crawlUrls softOracle3 1 ["u0", "u1", "u2"] 2 10 =
      [successRec "u0" "SNAP0" 200, successRec "u1" "SNAP1" 200,
        successRec "u2" "SNAP2" 200] ∧
    (crawlState softOracle3 1 ["u0", "u1", "u2"] 2 10).now = 1200 ∧
    (crawlState softOracle3 1 ["u0", "u1", "u2"] 2 10).now ≤ 1000 * hardKillSec 1 ∧
    crawlUrls hardOracle3 1 ["u"] 1 5 = [hardKillRec "u" (hardKillSec 1)] := by
  refine ⟨by decide, by decide, by decide, by decide⟩

theorem enumerate_length : ∀ (us : List String) (k : Nat),
    (enumerate k us).length = us.length := by
  intro us
  induction us with
  | nil => intro k; rfl
  | cons u rest ih => intro k; simp [enumerate, ih]

theorem seedTabs_len_le (o : SelOracle) (target : Nat) :
    ∀ (pending : List (Nat × String)) (created : Nat),
      (seedTabs o target created pending).1.length ≤
        min (target - created) pending.length := by
  intro pending
  induction pending with
  | nil => intro created; simp [seedTabs]
  | cons p rest ih =>
    intro created
    obtain ⟨i, u⟩ := p
    by_cases hc : created < target
    · cases hof : o.openFails i with
      | some e =>
        have hlen : (seedTabs o target created ((i, u) :: rest)).1.length =
            (seedTabs o target created rest).1.length := by
          simp [seedTabs, hc, hof]
        rw [hlen]
        have := ih created
        simp only [List.length_cons]
        omega
      | none =>
        have hlen : (seedTabs o target created ((i, u) :: rest)).1.length =
            (seedTabs o target (created + 1) rest).1.length + 1 := by
          simp [seedTabs, hc, hof]
        rw [hlen]
        have := ih (created + 1)
        simp only [List.length_cons]
        omega
    · have hlen : (seedTabs o target created ((i, u) :: rest)).1 = [] := by
        simp [seedTabs, hc]
      rw [hlen]
      simp only [List.length_nil]
      omega

theorem seedTabs_len_eq (o : SelOracle) (hnf : ∀ i, o.openFails i = none)
    (target : Nat) :
    ∀ (pending : List (Nat × String)) (created : Nat),
      (seedTabs o target created pending).1.length =
        min (target - created) pending.length := by
  intro pending
  induction pending with
  | nil => intro created; simp [seedTabs]
  | cons p rest ih =>
    intro created
    obtain ⟨i, u⟩ := p
    by_cases hc : created < target
    · have hlen : (seedTabs o target created ((i, u) :: rest)).1.length =
          (seedTabs o target (created + 1) rest).1.length + 1 := by
        simp [seedTabs, hc, hnf i]
      rw [hlen]
      have := ih (created + 1)
      simp only [List.length_cons]
      omega
    · have hlen : (seedTabs o target created ((i, u) :: rest)).1 = [] := by
        simp [seedTabs, hc]
      rw [hlen]
      simp only [List.length_nil]
      omega

/-- C10 amended: an empty url list returns `[]` for every oracle (the
browser is never consulted); `max_tabs` below 1 is clamped to 1 and the
seeded tab count never exceeds `min(max(1, max_tabs), total)`, reaching it —
hence at least one tab for nonempty input — whenever the initial
`window.open` calls succeed; a failing `window.open` seeds no tab, so with
all opens failing zero tabs are seeded (the counterexample). -/
theorem c10_seed_bounds :
    (∀ (o : SelOracle) (timeout : Nat) (maxTabs : Int) (fuel : Nat),
      crawlUrls o timeout [] maxTabs fuel = []) ∧
    (∀ (o : SelOracle) (urls : List String) (maxTabs : Int),
      (seedOut o urls maxTabs).1.length ≤
        min ((max 1 maxTabs).toNat) urls.length) ∧
    (∀ (o : SelOracle) (urls : List String) (maxTabs : Int),
      (∀ i, o.openFails i = none) →
        (seedOut o urls maxTabs).1.length =
          min ((max 1 maxTabs).toNat) urls.length) ∧
    (∀ (o : SelOracle) (urls : List String) (maxTabs : Int),
      urls ≠ [] → (∀ i, o.openFails i = none) →
        1 ≤ (seedOut o urls maxTabs).1.length) := by
  have hle : ∀ (o : SelOracle) (urls : List String) (maxTabs : Int),
      (seedOut o urls maxTabs).1.length ≤
        min ((max 1 maxTabs).toNat) urls.length := by
    intro o urls maxTabs
    have := seedTabs_len_le o (min ((max 1 maxTabs).toNat) urls.length)
      (enumerate 0 urls) 0
    rw [enumerate_length] at this
    simp only [seedOut]
    omega
  have heq : ∀ (o : SelOracle) (urls : List String) (maxTabs : Int),
      (∀ i, o.openFails i = none) →
        (seedOut o urls maxTabs).1.length =
          min ((max 1 maxTabs).toNat) urls.length := by
    intro o urls maxTabs hnf
    have := seedTabs_len_eq o hnf (min ((max 1 maxTabs).toNat) urls.length)
      (enumerate 0 urls) 0
    rw [enumerate_length] at this
    simp only [seedOut]
    omega
  refine ⟨fun o timeout maxTabs fuel => rfl, hle, heq, ?_⟩
  intro o urls maxTabs hne hnf
  have h := heq o urls maxTabs hnf
  have hlen : 1 ≤ urls.length := List.length_pos.mpr hne
  have hmt : 1 ≤ (max 1 maxTabs).toNat := by omega
  omega

/-- Counterexample for C10: a nonempty url list whose initial `window.open`
always raises seeds zero tabs, contradicting "at least one tab is seeded
whenever the URL list is non-empty". -/
theorem c10_counterexample :
    (["a"] : List String).isEmpty = false ∧
      (seedOut allOpenFail ["a"] 5).1.length = 0 := by
  decide

/-- Witness for C10 (amended): with three urls, `max_tabs = 2` and opens
succeeding, exactly `min(max(1, 2), 3) = 2` tabs are seeded. -/
theorem c10_witness :
    (seedOut shortOracle ["a", "b", "c"] 2).1.length = 2 := by
  rw [c10_seed_bounds.2.2.1 shortOracle ["a", "b", "c"] 2 (fun i => rfl)]
  decide

/-! ## Strategy-loop lemmas for the playwright/patchright engines -/

/-- Strategies / attempt indices consulted during a run. -/
def attemptsOf (evs : List Ev) : List (Bool × Bool × Nat) :=
  evs.filterMap fun e =>
    match e with
    | .attempt hd mb k => some (hd, mb, k)
    | _ => none

/-- Sleep durations performed during a run. -/
def sleepsOf (evs : List Ev) : List Nat :=
  evs.filterMap fun e =>
    match e with
    | .sleepSec n => some n
    | _ => none

theorem strippedLen_pos_ne (s : String) (h : 0 < strippedLen s) : s ≠ "" := by
  intro he
  subst he
  exact absurd h (by decide)

theorem tryOn_cons_not_accepted (att : AttemptOracle) (hd mb : Bool)
    (rest : List (Bool × Bool)) (h : accepted (pwAttempt att hd mb).1 = false) :
    tryStrategiesOn att ((hd, mb) :: rest) =
      ((tryStrategiesOn att rest).1,
        (pwAttempt att hd mb).2 ++ (tryStrategiesOn att rest).2) := by
  simp only [tryStrategiesOn]
  rcases hres : (pwAttempt att hd mb).1 with e | ⟨html, sc⟩
  · simp [hres]
  · rw [hres] at h
    simp only [accepted] at h
    simp only [hres]
    have hne : ¬ ((decide (html ≠ "") && decide (100 < strippedLen html)) = true) := by
      rw [h]; decide
    rw [if_neg hne]

theorem tryOn_cons_accepted (att : AttemptOracle) (hd mb : Bool)
    (rest : List (Bool × Bool)) (v : String × Nat)
    (hok : (pwAttempt att hd mb).1 = .ok v)
    (hacc : accepted (pwAttempt att hd mb).1 = true) :
    tryStrategiesOn att ((hd, mb) :: rest) = (v, (pwAttempt att hd mb).2) := by
  obtain ⟨html, sc⟩ := v
  rw [hok] at hacc
  simp only [accepted] at hacc
  simp only [tryStrategiesOn, hok]
  rw [if_pos hacc]

theorem tryOn_all_not_accepted (att : AttemptOracle) :
    ∀ l, (∀ s ∈ l, accepted (pwAttempt att s.1 s.2).1 = false) →
      (tryStrategiesOn att l).1 = ("", 0) := by
  intro l
  induction l with
  | nil => intro _; rfl
  | cons s rest ih =>
    intro h
    obtain ⟨hd, mb⟩ := s
    rw [tryOn_cons_not_accepted att hd mb rest (h (hd, mb) (List.mem_cons_self _ _))]
    exact ih fun x hx => h x (List.mem_cons_of_mem _ hx)

theorem prTryOn_cons_not_accepted (att : PAttemptOracle) (hd : Bool)
    (rest : List Bool) (h : accepted (prAttempt att hd).1 = false) :
    prTryStrategiesOn att (hd :: rest) =
      ((prTryStrategiesOn att rest).1,
        (prAttempt att hd).2 ++ (prTryStrategiesOn att rest).2) := by
  simp only [prTryStrategiesOn]
  rcases hres : (prAttempt att hd).1 with e | ⟨html, sc⟩
  · simp [hres]
  · rw [hres] at h
    simp only [accepted] at h
    simp only [hres]
    have hne : ¬ ((decide (html ≠ "") && decide (100 < strippedLen html)) = true) := by
      rw [h]; decide
    rw [if_neg hne]

theorem prTryOn_all_not_accepted (att : PAttemptOracle) :
    ∀ l, (∀ hd ∈ l, accepted (prAttempt att hd).1 = false) →
      (prTryStrategiesOn att l).1 = ("", 0) := by
  intro l
  induction l with
  | nil => intro _; rfl
  | cons hd rest ih =>
    intro h
    rw [prTryOn_cons_not_accepted att hd rest (h hd (List.mem_cons_self _ _))]
    exact ih fun x hx => h x (List.mem_cons_of_mem _ hx)

/-- Oracle whose headful-desktop strategy returns content of stripped length
exactly 100 and whose headful-mobile strategy fails to launch. -/
def c4att : AttemptOracle := fun hd mb _ =>
  if hd then failAttempt "unused headless strategy"
  else if mb then failAttempt "mobile launch failed"
  else simpleAttempt (cChars 100) (cChars 100) 207

set_option maxRecDepth 4000 in
/-- Counterexample for C4: an attempt whose content has stripped length
exactly 100 (the threshold) is NOT accepted — the engine falls through and,
with the other strategy failing, ends with the `("", 0)` failure value
instead of the exact-threshold content. -/
theorem c4_counterexample :
    strippedLen (cChars 100) = 100 ∧
      (tryWithDifferentStrategies c4att false).1 = ("", 0) := by
  decide

/-- C4 amended: as soon as one strategy's attempt returns an acceptable
result — nonempty html with stripped length strictly greater than 100 — the
engine returns that result at once and the remaining strategies are never
consulted (the whole run, trace included, equals the run with the later
strategies removed). -/
theorem c4_short_circuit (att : AttemptOracle) (pre : List (Bool × Bool))
    (s : Bool × Bool) (post : List (Bool × Bool)) (v : String × Nat)
    (hpre : ∀ t ∈ pre, accepted (pwAttempt att t.1 t.2).1 = false)
    (hok : (pwAttempt att s.1 s.2).1 = .ok v)
    (h1 : v.1 ≠ "") (h2 : 100 < strippedLen v.1) :
    (tryStrategiesOn att (pre ++ s :: post)).1 = v ∧
      tryStrategiesOn att (pre ++ s :: post) =
        tryStrategiesOn att (pre ++ [s]) := by
  induction pre with
  | nil =>
    obtain ⟨hd, mb⟩ := s
    have hacc : accepted (pwAttempt att hd mb).1 = true := by
      rw [hok]
      obtain ⟨html, sc⟩ := v
      simp only [accepted, Bool.and_eq_true, decide_eq_true_eq]
      exact ⟨h1, h2⟩
    have ha := tryOn_cons_accepted att hd mb post v hok hacc
    have hb := tryOn_cons_accepted att hd mb [] v hok hacc
    simp only [List.nil_append]
    rw [ha, hb]
    exact ⟨rfl, rfl⟩
  | cons t pre' ih =>
    have ht := hpre t (List.mem_cons_self _ _)
    have hrest : ∀ x ∈ pre', accepted (pwAttempt att x.1 x.2).1 = false :=
      fun x hx => hpre x (List.mem_cons_of_mem _ hx)
    have hih := ih hrest
    obtain ⟨thd, tmb⟩ := t
    simp only [List.cons_append]
    rw [tryOn_cons_not_accepted att thd tmb _ ht,
      tryOn_cons_not_accepted att thd tmb _ ht]
    exact ⟨hih.1, by rw [hih.2]⟩

/-- Oracle for the C4 witness: headless-desktop fails to launch,
headless-mobile returns a rich page. -/
def c4watt : AttemptOracle := fun hd mb _ =>
  if hd && !mb then failAttempt "launch failed"
  else simpleAttempt (cChars 150) (cChars 150) 201

set_option maxRecDepth 4000 in
/-- Witness for C4 (amended): concrete short-circuit at the second strategy
of the headless-preferred order. -/
theorem c4_witness :
    (tryStrategiesOn c4watt
      ([(true, false)] ++ (true, true) :: [(false, false), (false, true)])).1 =
        (cChars 150, 201) ∧
      tryStrategiesOn c4watt
          ([(true, false)] ++ (true, true) :: [(false, false), (false, true)]) =
        tryStrategiesOn c4watt ([(true, false)] ++ [(true, true)]) := by
  have h := c4_short_circuit c4watt [(true, false)] (true, true)
    [(false, false), (false, true)] (cChars 150, 201)
    (by decide) (by rfl) (by decide) (by decide)
  exact h

/-- A clean attempt chain whose three reads are all thin: the engine runs the
initial attempt plus exactly two retries of the same strategy, with the
stabilisation waits 3, 4, 5 seconds, and returns the last thin re-read. -/
theorem pw_thin_engine (att : AttemptOracle) (hd mb : Bool)
    (hl : ∀ k, k ≤ 2 → (att hd mb k).launchErr = none)
    (hg : ∀ k, k ≤ 2 → (att hd mb k).gotoTimeout = none)
    (hm : ∀ k, k ≤ 2 → (att hd mb k).mainErr = none)
    (h1 : ∀ k, k ≤ 2 → strippedLen (att hd mb k).html1 < 100)
    (h2 : ∀ k, k ≤ 2 → strippedLen (att hd mb k).html2 < 100) :
    pwAttempt att hd mb =
      (.ok ((att hd mb 2).html2, (att hd mb 2).status),
        [.attempt hd mb 0, .mkdir hd mb 0, .sleepSec 3, .sleepSec 5,
         .attempt hd mb 1, .mkdir hd mb 1, .sleepSec 4, .sleepSec 5,
         .attempt hd mb 2, .mkdir hd mb 2, .sleepSec 5, .sleepSec 5,
         .rmdir hd mb 2]) := by
  simp [pwAttempt, pwAttemptGo,
    hl 0 (by omega), hg 0 (by omega), hm 0 (by omega),
    hl 1 (by omega), hg 1 (by omega), hm 1 (by omega),
    hl 2 (by omega), hg 2 (by omega), hm 2 (by omega),
    h1 0 (by omega), h1 1 (by omega), h1 2 (by omega),
    h2 0 (by omega), h2 1 (by omega), h2 2 (by omega)]

/-- A clean attempt whose first read is already rich returns it at once. -/
theorem pw_rich_attempt (att : AttemptOracle) (hd mb : Bool)
    (hl : (att hd mb 0).launchErr = none)
    (hg : (att hd mb 0).gotoTimeout = none)
    (hm : (att hd mb 0).mainErr = none)
    (hr : ¬ strippedLen (att hd mb 0).html1 < 100) :
    pwAttempt att hd mb =
      (.ok ((att hd mb 0).html1, (att hd mb 0).status),
        [.attempt hd mb 0, .mkdir hd mb 0, .sleepSec 3, .rmdir hd mb 0]) := by
  simp [pwAttempt, pwAttemptGo, hl, hg, hm, hr]

/-- C5.  With the first strategy (headless desktop) yielding thin content on
every read and the second strategy (headless mobile) yielding rich content,
the engine retries the first strategy exactly twice (attempt indices 0, 1, 2,
with incremental stabilisation waits 3, 4, 5 seconds plus the 5-second
re-read waits), then moves to the next strategy and returns its rich content
as the final successful result. -/
theorem c5_retry_then_next_strategy (att : AttemptOracle)
    (hl : ∀ k, k ≤ 2 → (att true false k).launchErr = none)
    (hg : ∀ k, k ≤ 2 → (att true false k).gotoTimeout = none)
    (hm : ∀ k, k ≤ 2 → (att true false k).mainErr = none)
    (h1 : ∀ k, k ≤ 2 → strippedLen (att true false k).html1 < 100)
    (h2 : ∀ k, k ≤ 2 → strippedLen (att true false k).html2 < 100)
    (bl : (att true true 0).launchErr = none)
    (bg : (att true true 0).gotoTimeout = none)
    (bm : (att true true 0).mainErr = none)
    (br : 100 < strippedLen (att true true 0).html1) :
    (tryWithDifferentStrategies att true).1 =
      ((att true true 0).html1, (att true true 0).status) ∧
    attemptsOf (tryWithDifferentStrategies att true).2 =
      [(true, false, 0), (true, false, 1), (true, false, 2), (true, true, 0)] ∧
    sleepsOf (tryWithDifferentStrategies att true).2 = [3, 5, 4, 5, 5, 5, 3] := by
  have hthin := pw_thin_engine att true false hl hg hm h1 h2
  have hrich := pw_rich_attempt att true true bl bg bm (by omega)
  have haccf : accepted (pwAttempt att true false).1 = false := by
    rw [hthin]
    have hn : ¬ (100 < strippedLen (att true false 2).html2) := by
      have := h2 2 (by omega); omega
    simp [accepted, hn]
  have hacct : accepted (pwAttempt att true true).1 = true := by
    rw [hrich]
    have hne : (att true true 0).html1 ≠ "" := strippedLen_pos_ne _ (by omega)
    simp [accepted, hne, br]
  have hstep : tryWithDifferentStrategies att true =
      (((att true true 0).html1, (att true true 0).status),
        (pwAttempt att true false).2 ++ (pwAttempt att true true).2) := by
    have ha := tryOn_cons_not_accepted att true false
      ((true, true) :: [(false, false), (false, true)]) haccf
    have hb := tryOn_cons_accepted att true true [(false, false), (false, true)]
      ((att true true 0).html1, (att true true 0).status) (by rw [hrich]) hacct
    show tryStrategiesOn att
      ((true, false) :: (true, true) :: [(false, false), (false, true)]) = _
    rw [ha, hb]
  refine ⟨by rw [hstep], ?_, ?_⟩
  · rw [hstep]
    show attemptsOf ((pwAttempt att true false).2 ++ (pwAttempt att true true).2) = _
    rw [hthin, hrich]
    rfl
  · rw [hstep]
    show sleepsOf ((pwAttempt att true false).2 ++ (pwAttempt att true true).2) = _
    rw [hthin, hrich]
    rfl

/-- Scenario B oracle: headless desktop always reads 40 characters, every
other strategy reads 150 characters. -/
def c5att : AttemptOracle := fun hd mb _ =>
  if hd && !mb then simpleAttempt (cChars 40) (cChars 40) 200
  else simpleAttempt (cChars 150) (cChars 150) 207

set_option maxRecDepth 4000 in
/-- Witness for C5: the Scenario B oracle ends with the 150-character content
of the second strategy after exactly three attempts of the first. -/
theorem c5_witness :
    (tryWithDifferentStrategies c5att true).1 = (cChars 150, 207) ∧
    attemptsOf (tryWithDifferentStrategies c5att true).2 =
      [(true, false, 0), (true, false, 1), (true, false, 2), (true, true, 0)] := by
  have h40 : strippedLen (cChars 40) < 100 := by decide
  have h := c5_retry_then_next_strategy c5att
    (fun k _ => rfl) (fun k _ => rfl) (fun k _ => rfl)
    (fun k _ => h40) (fun k _ => h40)
    rfl rfl rfl (by decide)
  exact ⟨h.1, h.2.1⟩

/-- C6.  When every strategy of the ordered list fails acceptance (raises or
returns html that is empty or not above the 100-character stripped-length
threshold after all retries), both engines return the terminal failure value
`("", 0)` — a plain return value of the total model, not an exception. -/
theorem c6_exhausted_returns_failure :
    (∀ (att : AttemptOracle) (ph : Bool),
      (∀ s ∈ pwStrategies ph, accepted (pwAttempt att s.1 s.2).1 = false) →
        (getSingleHtmlSource att ph).1 = ("", 0)) ∧
    (∀ (att : PAttemptOracle) (ph : Bool),
      (∀ hd ∈ prStrategies ph, accepted (prAttempt att hd).1 = false) →
        (prGetSingleHtmlSource att ph).1 = ("", 0)) :=
  ⟨fun att ph h => tryOn_all_not_accepted att (pwStrategies ph) h,
   fun att ph h => prTryOn_all_not_accepted att (prStrategies ph) h⟩

/-- Every attempt's browser launch raises. -/
def allFailAtt : AttemptOracle := fun _ _ _ => failAttempt "connection refused"

/-- Every patchright context creation raises. -/
def prAllFailAtt : PAttemptOracle := fun _ _ =>
  { createErr := some "connection refused", bodyErr := none,
    content := "", status := 0 }

/-- Witness for C6: concrete all-failing oracles for both engines. -/
theorem c6_witness :
    (getSingleHtmlSource allFailAtt true).1 = ("", 0) ∧
      (prGetSingleHtmlSource prAllFailAtt true).1 = ("", 0) :=
  ⟨c6_exhausted_returns_failure.1 allFailAtt true (by decide),
   c6_exhausted_returns_failure.2 prAllFailAtt true (by decide)⟩

/-- C7.  A `future.result()` failure (per-task exception or timeout) at index
`i` yields the zero-length failure record at exactly that slot, and every
slot of the batch — failed or not — is the record determined by its own
index's outcome, in both the thread-pool and the process-pool scheduler; no
exception reaches the batch loop (the models are total). -/
theorem c7_per_task_isolation :
    (∀ (o : BatchOracle) (urls : List String) (headless rsc : Bool)
        (order : List Nat) (i : Nat) (e : String),
      order.Perm (List.range urls.length) → i < urls.length →
      o.futureErr i = some e →
        (batchGetHtmlSources o urls headless rsc order).getD i none =
          some { url := urls.getD i "", source_code := "",
                 status_code := if rsc then some 0 else none }) ∧
    (∀ (o : BatchOracle) (urls : List String) (headless rsc : Bool)
        (order : List Nat) (j : Nat),
      order.Perm (List.range urls.length) → j < urls.length →
        (batchGetHtmlSources o urls headless rsc order).getD j none =
          some (batchOutcome o urls headless rsc j)) ∧
    (∀ (o : PoolOracle) (urls : List String) (order : List Nat) (i : Nat)
        (e : String),
      order.Perm (List.range urls.length) → i < urls.length →
      o.futureErr i = some e →
      ∃ out, getHtmlSources o urls order = some out ∧
        out.getD i (noResultRec "") =
          { url := urls.getD i "", source_code := "", status := "failed",
            status_code := some 0, error := some e, content_length := 0 }) := by
  have hslot : ∀ (o : BatchOracle) (urls : List String) (headless rsc : Bool)
      (order : List Nat) (j : Nat),
      order.Perm (List.range urls.length) → j < urls.length →
        (batchGetHtmlSources o urls headless rsc order).getD j none =
          some (batchOutcome o urls headless rsc j) := by
    intro o urls headless rsc order j hperm hj
    unfold batchGetHtmlSources
    rw [batch_foldl_getD o urls headless rsc order _ j
      (by rw [List.length_replicate]; exact hj)]
    simp [hperm.mem_iff.mpr (List.mem_range.mpr hj)]
  refine ⟨?_, hslot, ?_⟩
  · intro o urls headless rsc order i e hperm hi herr
    rw [hslot o urls headless rsc order i hperm hi]
    simp [batchOutcome, herr]
  · intro o urls order i e hperm hi herr
    refine ⟨(List.range urls.length).map (poolOutcome o urls), ?_, ?_⟩
    · unfold getHtmlSources
      have hmap := mapOpt_eq_map_of_forall
        (fun j => lookupRec j (poolResults o urls order))
        (poolOutcome o urls) (List.range urls.length)
        (fun j hj => lookup_poolResults o urls order j (hperm.mem_iff.mpr hj))
      by_cases he : urls.isEmpty
      · have hnil : urls = [] := List.isEmpty_iff.mp he
        subst hnil
        simp
      · simp only [he, Bool.false_eq_true, if_neg, not_false_eq_true]
        exact hmap
    · rw [getD_map_range _ _ hi]
      simp [poolOutcome, herr]

/-- Thread-pool oracle whose future at index 0 times out. -/
def c7batch : BatchOracle :=
  { att := fun _ => richAtt
    futureErr := fun i => if i = 0 then some "TimeoutError" else none }

/-- Process-pool oracle whose future at index 0 raises. -/
def c7pool : PoolOracle :=
  { benignPool with
      futureErr := fun i => if i = 0 then some "BrokenProcessPool" else none }

set_option maxRecDepth 4000 in
/-- Witness for C7: with the future of url 0 failing and completion order
reversed, slot 0 holds the zero-length failure record and slot 1 its own
normal record. -/
theorem c7_witness :
    (batchGetHtmlSources c7batch ["a", "b"] true true [1, 0]).getD 0 none =
      some { url := "a", source_code := "", status_code := some 0 } ∧
    (batchGetHtmlSources c7batch ["a", "b"] true true [1, 0]).getD 1 none =
      some (batchOutcome c7batch ["a", "b"] true true 1) ∧
    ((getHtmlSources c7pool ["a", "b"] [1, 0]).getD []).getD 0 (noResultRec "") =
      { url := "a", source_code := "", status := "failed",
        status_code := some 0, error := some "BrokenProcessPool",
        content_length := 0 } := by
  refine ⟨?_, ?_, ?_⟩
  · exact c7_per_task_isolation.1 c7batch ["a", "b"] true true [1, 0] 0
      "TimeoutError" (by decide) (by decide) rfl
  · exact c7_per_task_isolation.2.1 c7batch ["a", "b"] true true [1, 0] 1
      (by decide) (by decide)
  · obtain ⟨out, ho, hrec⟩ := c7_per_task_isolation.2.2 c7pool ["a", "b"] [1, 0] 0
      "BrokenProcessPool" (by decide) (by decide) rfl
    rw [ho]
    exact hrec

/-- Playwright oracle whose every read is thin (forcing the retry recursion). -/
def c8att : AttemptOracle := fun _ _ _ => simpleAttempt (cChars 40) (cChars 40) 200

/-- Patchright oracle with the same thin reads. -/
def c8pratt : PAttemptOracle := fun _ _ =>
  { createErr := none, bodyErr := none, content := cChars 40, status := 200 }

set_option maxRecDepth 4000 in
/-- C8 (code bug).  In the playwright binding a thin-content run creates the
attempt-0 temp profile directory but never removes it: the retry recursion
returns the inner call without running any cleanup for the current attempt.
The patchright binding's `finally` block removes the same directory. -/
theorem c8_temp_dir_leak :
    Ev.mkdir false false 0 ∈ (getSingleHtmlSource c8att false).2 ∧
    Ev.rmdir false false 0 ∉ (getSingleHtmlSource c8att false).2 ∧
    Ev.mkdir false false 0 ∈ (prGetSingleHtmlSource c8pratt false).2 ∧
    Ev.rmdir false false 0 ∈ (prGetSingleHtmlSource c8pratt false).2 := by
  decide

/-- Counterexample for C9: when `page.evaluate` raises, the playwright status
resolver returns 200, not the claimed 0 for unknown/failed cases. -/
theorem c9_counterexample :
    pwStatusFromResponse (.error "page.evaluate raised") = 200 ∧
      pwStatusFromResponse (.error "page.evaluate raised") ≠ 0 := by
  decide

/-- C9 amended: the selenium `_get_status_code` has no navigation-response
layer — it returns the first nonzero `Network.responseReceived` entry of the
performance log matching the request url, and otherwise 200 exactly when the
body probe sees a root node with page length above 100, else 0; the
playwright `_get_status_code_from_response` returns the evaluated navigation
entry status when nonzero and 200 in every remaining case — never 0. -/
theorem c9_status_resolution :
    (∀ (target : String) (l : List (Option LogEntry)),
      scanLog target l = l.findSome? fun e? => e?.bind fun e =>
        if e.method = "Network.responseReceived" && e.url = target &&
            e.status ≠ 0
        then some e.status else none) ∧
    (∀ (o : StatusOracle) (target : String) (l : List (Option LogEntry))
        (s : Nat),
      o.alive = true → o.log = .ok l → scanLog target l = some s →
        getStatusCode o target = s) ∧
    (∀ (o : StatusOracle) (target : String) (l : List (Option LogEntry)),
      o.alive = true → o.log = .ok l → scanLog target l = none →
        (getStatusCode o target = 200 ↔
          ∃ n, o.bodyProbe = some (true, n) ∧ 100 < n)) ∧
    (∀ (o : StatusOracle) (target : String) (l : List (Option LogEntry)),
      o.alive = true → o.log = .ok l → scanLog target l = none →
        getStatusCode o target = 200 ∨ getStatusCode o target = 0) ∧
    (∀ r, pwStatusFromResponse r ≠ 0) := by
  refine ⟨?_, ?_, ?_, ?_, ?_⟩
  · intro target l
    induction l with
    | nil => rfl
    | cons e? rest ih =>
      cases e? with
      | none =>
        rw [scanLog, List.findSome?_cons]
        exact ih
      | some e =>
        simp only [scanLog, List.findSome?_cons, Option.some_bind]
        by_cases hc : (e.method = "Network.responseReceived" &&
            e.url = target && decide (e.status ≠ 0)) = true
        · rw [if_pos hc, if_pos hc]
        · rw [if_neg hc, if_neg hc]
          exact ih
  · intro o target l s halive hlog hscan
    simp [getStatusCode, halive, hlog, hscan]
  · intro o target l halive hlog hscan
    simp only [getStatusCode, halive, if_true, hlog, hscan]
    cases hbp : o.bodyProbe with
    | none => simp
    | some p =>
      obtain ⟨b, n⟩ := p
      cases b with
      | true =>
        by_cases hn : 100 < n
        · simp [hn]
        · simp [hn]
      | false => simp
  · intro o target l halive hlog hscan
    simp only [getStatusCode, halive, if_true, hlog, hscan]
    cases o.bodyProbe with
    | none => right; rfl
    | some p =>
      obtain ⟨b, n⟩ := p
      by_cases h : (b && decide (100 < n)) = true
      · left; simp [h]
      · right; simp [h]
  · intro r
    cases r with
    | error e => simp [pwStatusFromResponse]
    | ok s =>
      by_cases h : s = 0
      · subst h; decide
      · simp [pwStatusFromResponse, h]

/-- A performance log with a parse failure, a non-matching entry and a
matching 304 entry. -/
def c9log : List (Option LogEntry) :=
  [none, some ⟨"Network.requestWillBeSent", "http://t", 0⟩,
   some ⟨"Network.responseReceived", "http://t", 304⟩]

/-- Status oracle whose heuristic would give 200, overridden by the log. -/
def c9oracle : StatusOracle :=
  { alive := true, log := .ok c9log, bodyProbe := some (true, 500) }

/-- Witness for C9 (amended): the log layer wins and yields 304. -/
theorem c9_witness : getStatusCode c9oracle "http://t" = 304 :=
  c9_status_resolution.2.1 c9oracle "http://t" c9log 304 rfl rfl (by decide)

end Spider
